import Mathlib

/-
Shallow embedding of the sportsdata-parser normalization layer
(src/app/parser.py and src/app/models.py).

Modelling conventions:
- Python dict lookups `d.get(k)` / `d.get(k, default)` become `Option` fields
  with `.getD default`.
- `datetime` values are modelled as epoch seconds (`Int`); `datetime.now()`
  becomes an explicit `now : Int` parameter threaded through normalization,
  and `datetime.fromtimestamp` is the identity on epoch seconds.
- Python `float` odds are modelled as `Rat`.
- A raw nested sub-object (the `MIO` venue dict, the `WP` probability dict)
  is modelled as `Option`: `none` for absent.  A present-but-empty dict is
  falsy in Python; for the fields the code derives from these sub-objects
  this coincides with the absent case, so it is folded into `none`.
- pydantic validation of `Match(id=None, ...)` raises; this is the one
  failure point of `_parse_single_match` on well-typed raw data, so the
  normalizer returns `Option Match`, `none` when the record has no `I` key.
-/

namespace SportsDataParser

/-! ### Typed model (src/app/models.py) -/

structure Team where
  name : String
  id : Int
  image : Option String := none
  country : Option Int := none
  deriving DecidableEq

structure Market where
  type : Int
  outcome : Int
  odds : Rat
  parameter : Option Rat := none
  is_main : Bool := false
  deriving DecidableEq

structure Markets where
  match_result : List Market := []
  over_under : List Market := []
  handicap : List Market := []
  both_teams_score : List Market := []
  correct_score : List Market := []
  deriving DecidableEq

structure Weather where
  temperature : Option String := none
  condition : Option String := none
  humidity : Option String := none
  wind_speed : Option String := none
  pressure : Option String := none
  precipitation : Option String := none
  deriving DecidableEq

structure WinProbabilities where
  home_win : Option Rat := none
  draw : Option Rat := none
  away_win : Option Rat := none
  deriving DecidableEq

structure Match where
  id : Int
  name : String
  sport : String
  league : String
  country : String
  start_time : Int
  home_team : Team
  away_team : Team
  venue : Option String := none
  stage : Option String := none
  probabilities : Option WinProbabilities := none
  markets : Markets := {}
  weather : Option Weather := none
  is_live : Bool := false
  event_count : Int := 0
  deriving DecidableEq

/-! ### Raw vendor records (the field-coded JSON consumed by the parser) -/

structure RawMarket where
  G : Option Int := none
  T : Option Int := none
  C : Option Rat := none
  P : Option Rat := none
  CE : Option Int := none
  deriving DecidableEq

structure RawMarketGroup where
  G : Option Int := none
  ME : Option (List RawMarket) := none
  deriving DecidableEq

structure RawMiscItem where
  K : Option Int := none
  V : Option String := none
  deriving DecidableEq

structure RawVenueInfo where
  Loc : Option String := none
  TSt : Option String := none
  deriving DecidableEq

structure RawWinProb where
  P1 : Option Rat := none
  PX : Option Rat := none
  P2 : Option Rat := none
  deriving DecidableEq

structure RawMatchRecord where
  I : Option Int := none
  L : Option String := none
  SE : Option String := none
  LE : Option String := none
  CN : Option String := none
  S : Option Int := none
  O1 : Option String := none
  O1I : Option Int := none
  O1IMG : Option (List (Option String)) := none
  O1C : Option Int := none
  O2 : Option String := none
  O2I : Option Int := none
  O2IMG : Option (List (Option String)) := none
  O2C : Option Int := none
  MIO : Option RawVenueInfo := none
  WP : Option RawWinProb := none
  E : Option (List RawMarket) := none
  AE : Option (List RawMarketGroup) := none
  MIS : Option (List RawMiscItem) := none
  SS : Option Int := none
  EC : Option Int := none
  deriving DecidableEq

structure ApiRawResponse where
  Error : Option String := none
  ErrorCode : Option Int := none
  Success : Option Bool := none
  Value : Option (List RawMatchRecord) := none
  deriving DecidableEq

/-! ### BettingDataParser._categorize_market -/

def categorize_market (market : Market) (markets : Markets) : Markets :=
  let market_type := market.type
  if market_type = 1 then
    { markets with match_result := markets.match_result ++ [market] }
  else if market_type = 15 ∨ market_type = 62 then
    { markets with over_under := markets.over_under ++ [market] }
  else if market_type = 2 ∨ market_type = 17 then
    { markets with handicap := markets.handicap ++ [market] }
  else if market_type = 19 then
    { markets with both_teams_score := markets.both_teams_score ++ [market] }
  else if market_type = 8 then
    { markets with correct_score := markets.correct_score ++ [market] }
  else
    markets

/-! ### BettingDataParser._parse_markets -/

/-- The `Market(...)` constructed for one entry of the primary `"E"` array. -/
def main_market_of (market_data : RawMarket) : Market :=
  { type := market_data.G.getD 0
    outcome := market_data.T.getD 0
    odds := market_data.C.getD 0
    parameter := market_data.P
    is_main := market_data.CE == some 1 }

/-- The `Market(...)` constructed for one `"ME"` entry of an `"AE"` group,
tagged with the group's `"G"` type code and `is_main=False`. -/
def additional_market_of (group_type : Option Int) (market_data : RawMarket) : Market :=
  { type := group_type.getD 0
    outcome := market_data.T.getD 0
    odds := market_data.C.getD 0
    parameter := market_data.P
    is_main := false }

def parse_markets (main_markets : List RawMarket)
    (additional_markets : List RawMarketGroup) : Markets :=
  let markets : Markets := {}
  let markets := main_markets.foldl
    (fun acc market_data => categorize_market (main_market_of market_data) acc) markets
  additional_markets.foldl
    (fun acc market_group =>
      (market_group.ME.getD []).foldl
        (fun acc market_data =>
          categorize_market (additional_market_of market_group.G market_data) acc)
        acc)
    markets

/-! ### BettingDataParser._parse_weather -/

/-- The `weather_map` dict: outer `Option` is key presence in the dict, the
inner `Option String` is the stored value (itself possibly `None`, since the
code stores `item.get("V")` unconditionally). -/
structure WeatherMap where
  temperature : Option (Option String) := none
  condition : Option (Option String) := none
  humidity : Option (Option String) := none
  wind_speed : Option (Option String) := none
  pressure : Option (Option String) := none
  precipitation : Option (Option String) := none
  deriving DecidableEq

/-- Python truthiness of `weather_map`: the dict is empty iff no key was
ever assigned. -/
def WeatherMap.isEmptyMap (m : WeatherMap) : Bool :=
  m.temperature.isNone && m.condition.isNone && m.humidity.isNone &&
    m.wind_speed.isNone && m.pressure.isNone && m.precipitation.isNone

/-- One iteration of the `for item in weather_data` loop. -/
def weather_step (m : WeatherMap) (item : RawMiscItem) : WeatherMap :=
  let key := item.K
  let value := item.V
  if key = some 9 then { m with temperature := some value }
  else if key = some 21 then { m with condition := some value }
  else if key = some 27 then { m with humidity := some value }
  else if key = some 23 then { m with wind_speed := some value }
  else if key = some 25 then { m with pressure := some value }
  else if key = some 35 then { m with precipitation := some value }
  else m

/-- Construction `Weather(**weather_map)`: a key present in the dict supplies the field
(possibly `None`); a key absent from the dict leaves the pydantic default
`None`. -/
def weather_of_map (m : WeatherMap) : Weather :=
  { temperature := m.temperature.getD none
    condition := m.condition.getD none
    humidity := m.humidity.getD none
    wind_speed := m.wind_speed.getD none
    pressure := m.pressure.getD none
    precipitation := m.precipitation.getD none }

def parse_weather (weather_data : List RawMiscItem) : Option Weather :=
  if weather_data.isEmpty then none
  else
    let m := weather_data.foldl weather_step {}
    if m.isEmptyMap then none else some (weather_of_map m)

/-! ### BettingDataParser._parse_single_match -/

/-- Decoder for `match_data.get(k, [None])[0] if match_data.get(k) else None`:
first element of a non-empty image array, else `None`. -/
def first_image (imgs : Option (List (Option String))) : Option String :=
  match imgs with
  | some (x :: _) => x
  | _ => none

def parse_single_match (now : Int) (match_data : RawMatchRecord) : Option Match := do
  let match_id ← match_data.I
  let name := match_data.L.getD ""
  let sport := match_data.SE.getD ""
  let league := match_data.LE.getD ""
  let country := match_data.CN.getD ""
  let start_timestamp := match_data.S.getD 0
  let start_time := if start_timestamp ≠ 0 then start_timestamp else now
  let home_team : Team :=
    { name := match_data.O1.getD ""
      id := match_data.O1I.getD 0
      image := first_image match_data.O1IMG
      country := match_data.O1C }
  let away_team : Team :=
    { name := match_data.O2.getD ""
      id := match_data.O2I.getD 0
      image := first_image match_data.O2IMG
      country := match_data.O2C }
  let venue := match_data.MIO.bind RawVenueInfo.Loc
  let stage := match_data.MIO.bind RawVenueInfo.TSt
  let probabilities := match_data.WP.map
    (fun wp => { home_win := wp.P1, draw := wp.PX, away_win := wp.P2 })
  let markets := parse_markets (match_data.E.getD []) (match_data.AE.getD [])
  let weather := parse_weather (match_data.MIS.getD [])
  let is_live := match_data.SS.getD 0 == 1
  let event_count := match_data.EC.getD 0
  some
    { id := match_id
      name := name
      sport := sport
      league := league
      country := country
      start_time := start_time
      home_team := home_team
      away_team := away_team
      venue := venue
      stage := stage
      probabilities := probabilities
      markets := markets
      weather := weather
      is_live := is_live
      event_count := event_count }

/-! ### BettingDataParser._parse_matches -/

def parse_matches (now : Int) (raw_data : ApiRawResponse) : List Match :=
  (raw_data.Value.getD []).filterMap (parse_single_match now)

/-! ### Dataset read operations -/

def get_matches_with_good_odds (match_list : List Match) (min_odds : Rat) : List Match :=
  match_list.filter
    (fun m => m.markets.match_result.any (fun market => decide (min_odds ≤ market.odds)))

/-- One update `league_counts[match.league] = league_counts.get(match.league, 0) + 1`
update on the insertion-ordered dict, modelled as an association list: an
existing key is bumped in place, a new key is appended at the end. -/
def league_counts_step (league_counts : List (String × Nat)) (league : String) :
    List (String × Nat) :=
  match league_counts with
  | [] => [(league, 1)]
  | (k, c) :: rest =>
    if k = league then (k, c + 1) :: rest
    else (k, c) :: league_counts_step rest league

/-- The `league_counts` dict after the counting loop, in insertion
(first-encounter) order. -/
def league_counts (match_list : List Match) : List (String × Nat) :=
  match_list.foldl (fun acc m => league_counts_step acc m.league) []

/-- The call `sorted(league_counts.items(), key=lambda x: x[1], reverse=True)`:
Python's `sorted` is a stable sort; with `reverse=True` it sorts descending
by the key while keeping the original order of equal keys, which is exactly
a stable merge sort under `fun a b => b.2 ≤ a.2`. -/
def get_popular_leagues (match_list : List Match) : List (String × Nat) :=
  (league_counts match_list).mergeSort (fun a b => decide (b.2 ≤ a.2))

/-! ### Claim C1: the §4.2 classifier table -/

/-- C1: `_categorize_market` assigns every market exactly the bucket of the
§4.2 table: type code 1 goes to match_result, 15 or 62 to over_under, 2 or
17 to handicap, 19 to both_teams_score, 8 to correct_score, and any other
code is dropped into no bucket (the `Markets` value is unchanged). -/
theorem C1_classifier_table (market : Market) (markets : Markets) :
    (market.type = 1 →
      categorize_market market markets
        = { markets with match_result := markets.match_result ++ [market] }) ∧
    ((market.type = 15 ∨ market.type = 62) →
      categorize_market market markets
        = { markets with over_under := markets.over_under ++ [market] }) ∧
    ((market.type = 2 ∨ market.type = 17) →
      categorize_market market markets
        = { markets with handicap := markets.handicap ++ [market] }) ∧
    (market.type = 19 →
      categorize_market market markets
        = { markets with both_teams_score := markets.both_teams_score ++ [market] }) ∧
    (market.type = 8 →
      categorize_market market markets
        = { markets with correct_score := markets.correct_score ++ [market] }) ∧
    (market.type ∉ ([1, 2, 8, 15, 17, 19, 62] : List Int) →
      categorize_market market markets = markets) := by
  refine ⟨fun h => ?_, fun h => ?_, fun h => ?_, fun h => ?_, fun h => ?_, fun h => ?_⟩
  · simp [categorize_market, h]
  · rcases h with h | h <;> simp [categorize_market, h]
  · rcases h with h | h <;> simp [categorize_market, h]
  · simp [categorize_market, h]
  · simp [categorize_market, h]
  · simp only [List.mem_cons, List.not_mem_nil, or_false, not_or] at h
    obtain ⟨h1, h2, h8, h15, h17, h19, h62⟩ := h
    simp [categorize_market, h1, h2, h8, h15, h17, h19, h62]

/-- C1 witness: a concrete over/under market (type code 62) lands in the
over_under bucket. -/
theorem C1_classifier_table_witness :
    categorize_market { type := 62, outcome := 0, odds := 0 } {}
      = { over_under := [{ type := 62, outcome := 0, odds := 0 }] } :=
  (C1_classifier_table { type := 62, outcome := 0, odds := 0 } {}).2.1 (Or.inr rfl)

/-! ### Claim C2: one malformed record inside a batch -/

theorem length_filterMap_of_isSome {α β : Type} (f : α → Option β) :
    ∀ l : List α, (∀ a ∈ l, (f a).isSome) → (l.filterMap f).length = l.length := by
  intro l h
  induction l with
  | nil => simp
  | cons a l ih =>
    rw [List.filterMap_cons]
    obtain ⟨b, hb⟩ := Option.isSome_iff_exists.mp (h a (List.mem_cons_self a l))
    rw [hb]
    simp [ih (fun x hx => h x (List.mem_cons_of_mem a hx))]

/-- C2: when the raw `"Value"` array contains exactly one record that fails
normalization and all others succeed, batch normalization (which never
raises) yields a Dataset of size one less than the array, namely the
normalization of the surviving records in raw-array order. -/
theorem C2_one_bad_record (now : Int) (resp : ApiRawResponse)
    (pre post : List RawMatchRecord) (bad : RawMatchRecord)
    (hval : resp.Value = some (pre ++ bad :: post))
    (hbad : parse_single_match now bad = none)
    (hpre : ∀ r ∈ pre, (parse_single_match now r).isSome)
    (hpost : ∀ r ∈ post, (parse_single_match now r).isSome) :
    (parse_matches now resp).length = (pre ++ bad :: post).length - 1 ∧
    parse_matches now resp = (pre ++ post).filterMap (parse_single_match now) := by
  have hexp : parse_matches now resp
      = pre.filterMap (parse_single_match now) ++ post.filterMap (parse_single_match now) := by
    simp [parse_matches, hval, List.filterMap_append, List.filterMap_cons, hbad]
  constructor
  · rw [hexp, List.length_append,
      length_filterMap_of_isSome _ _ hpre, length_filterMap_of_isSome _ _ hpost]
    simp [List.length_append]
  · rw [hexp, List.filterMap_append]

/-- C2 witness: a two-record array whose second record lacks the required
match id yields a Dataset of size one, the normalization of the first. -/
theorem C2_one_bad_record_witness :
    (parse_matches 0 { Value := some [{ I := some 1 }, {}] }).length = 1 ∧
    parse_matches 0 { Value := some [{ I := some 1 }, {}] }
      = [({ I := some 1 } : RawMatchRecord)].filterMap (parse_single_match 0) :=
  C2_one_bad_record 0 _ [{ I := some 1 }] [] {} rfl rfl
    (by intro r hr; simp only [List.mem_singleton] at hr; subst hr; rfl)
    (by intro r hr; simp at hr)

/-! ### Claim C3: defaults for missing passthrough fields -/

/-- C3 counterexample: the match id has no default in the source
(`match_data.get("I")` with no second argument), so a record with every
field absent fails normalization instead of decoding its id to 0. -/
theorem C3_missing_id_counterexample :
    parse_single_match 0 {} = none := rfl

/-- C3 (amended): provided the record carries a match id, every other
integer or string passthrough field that is absent decodes to the default
0 (integers) or "" (strings), and the record still normalizes to a Match;
a record missing the match id itself fails normalization. -/
theorem C3_passthrough_defaults (now : Int) (r : RawMatchRecord) (k : Int)
    (hI : r.I = some k) :
    ∃ m : Match, parse_single_match now r = some m ∧
      m.id = k ∧
      (r.L = none → m.name = "") ∧
      (r.SE = none → m.sport = "") ∧
      (r.LE = none → m.league = "") ∧
      (r.CN = none → m.country = "") ∧
      (r.O1 = none → m.home_team.name = "") ∧
      (r.O1I = none → m.home_team.id = 0) ∧
      (r.O2 = none → m.away_team.name = "") ∧
      (r.O2I = none → m.away_team.id = 0) ∧
      (r.EC = none → m.event_count = 0) := by
  unfold parse_single_match
  rw [hI]
  refine ⟨_, rfl, rfl, ?_, ?_, ?_, ?_, ?_, ?_, ?_, ?_, ?_⟩ <;> intro h <;> simp [h]

/-- C3 witness: a record carrying only the match id 7 normalizes, with all
passthrough fields at their defaults. -/
theorem C3_passthrough_defaults_witness :
    ∃ m : Match, parse_single_match 0 { I := some 7 } = some m ∧
      m.id = 7 ∧
      (({ I := some 7 } : RawMatchRecord).L = none → m.name = "") ∧
      (({ I := some 7 } : RawMatchRecord).SE = none → m.sport = "") ∧
      (({ I := some 7 } : RawMatchRecord).LE = none → m.league = "") ∧
      (({ I := some 7 } : RawMatchRecord).CN = none → m.country = "") ∧
      (({ I := some 7 } : RawMatchRecord).O1 = none → m.home_team.name = "") ∧
      (({ I := some 7 } : RawMatchRecord).O1I = none → m.home_team.id = 0) ∧
      (({ I := some 7 } : RawMatchRecord).O2 = none → m.away_team.name = "") ∧
      (({ I := some 7 } : RawMatchRecord).O2I = none → m.away_team.id = 0) ∧
      (({ I := some 7 } : RawMatchRecord).EC = none → m.event_count = 0) :=
  C3_passthrough_defaults 0 { I := some 7 } 7 rfl

/-! ### Claim C4: every market is in at most one bucket -/

/-- All five buckets of a `Markets` value, concatenated. -/
def all_buckets (markets : Markets) : List Market :=
  markets.match_result ++ markets.over_under ++ markets.handicap ++
    markets.both_teams_score ++ markets.correct_score

/-- The number of buckets of a `Markets` value that contain a given market. -/
def buckets_containing (markets : Markets) (m : Market) : Nat :=
  (if m ∈ markets.match_result then 1 else 0) +
    (if m ∈ markets.over_under then 1 else 0) +
    (if m ∈ markets.handicap then 1 else 0) +
    (if m ∈ markets.both_teams_score then 1 else 0) +
    (if m ∈ markets.correct_score then 1 else 0)

/-- Invariant: each bucket only holds markets of its own type codes. -/
def BucketsWellTyped (markets : Markets) : Prop :=
  (∀ m ∈ markets.match_result, m.type = 1) ∧
  (∀ m ∈ markets.over_under, m.type = 15 ∨ m.type = 62) ∧
  (∀ m ∈ markets.handicap, m.type = 2 ∨ m.type = 17) ∧
  (∀ m ∈ markets.both_teams_score, m.type = 19) ∧
  (∀ m ∈ markets.correct_score, m.type = 8)

theorem forall_mem_append_singleton {P : Market → Prop} {l : List Market} {mk : Market}
    (hl : ∀ m ∈ l, P m) (hmk : P mk) : ∀ m ∈ l ++ [mk], P m := by
  intro m hm
  rcases List.mem_append.mp hm with h | h
  · exact hl m h
  · rw [List.mem_singleton] at h
    subst h
    exact hmk

theorem bucketsWellTyped_categorize (mk : Market) (ms : Markets)
    (h : BucketsWellTyped ms) : BucketsWellTyped (categorize_market mk ms) := by
  obtain ⟨h1, h2, h3, h4, h5⟩ := h
  unfold categorize_market
  dsimp only
  split_ifs with c1 c2 c3 c4 c5
  · exact ⟨forall_mem_append_singleton h1 c1, h2, h3, h4, h5⟩
  · exact ⟨h1, forall_mem_append_singleton h2 c2, h3, h4, h5⟩
  · exact ⟨h1, h2, forall_mem_append_singleton h3 c3, h4, h5⟩
  · exact ⟨h1, h2, h3, forall_mem_append_singleton h4 c4, h5⟩
  · exact ⟨h1, h2, h3, h4, forall_mem_append_singleton h5 c5⟩
  · exact ⟨h1, h2, h3, h4, h5⟩

theorem bucketsWellTyped_foldl_categorize {α : Type} (f : α → Market) (l : List α) :
    ∀ ms : Markets, BucketsWellTyped ms →
      BucketsWellTyped (l.foldl (fun acc d => categorize_market (f d) acc) ms) := by
  induction l with
  | nil => intro ms h; exact h
  | cons d l ih => intro ms h; exact ih _ (bucketsWellTyped_categorize _ _ h)

theorem bucketsWellTyped_foldl_groups (l : List RawMarketGroup) :
    ∀ ms : Markets, BucketsWellTyped ms →
      BucketsWellTyped (l.foldl
        (fun acc market_group =>
          (market_group.ME.getD []).foldl
            (fun acc market_data =>
              categorize_market (additional_market_of market_group.G market_data) acc)
            acc)
        ms) := by
  induction l with
  | nil => intro ms h; exact h
  | cons g l ih =>
    intro ms h
    exact ih _ (bucketsWellTyped_foldl_categorize (additional_market_of g.G) _ ms h)

theorem bucketsWellTyped_empty : BucketsWellTyped {} := by
  refine ⟨?_, ?_, ?_, ?_, ?_⟩ <;> intro m hm <;> simp at hm

theorem bucketsWellTyped_parse_markets (main_markets : List RawMarket)
    (additional_markets : List RawMarketGroup) :
    BucketsWellTyped (parse_markets main_markets additional_markets) := by
  unfold parse_markets
  dsimp only
  exact bucketsWellTyped_foldl_groups additional_markets _
    (bucketsWellTyped_foldl_categorize main_market_of main_markets {} bucketsWellTyped_empty)

/-- C4: for the `Markets` value built by `_parse_markets`, every market is
retained in at most one of the five buckets, and a market whose type code
is not one of 1, 2, 8, 15, 17, 19, 62 is retained in no bucket at all. -/
theorem C4_at_most_one_bucket (main_markets : List RawMarket)
    (additional_markets : List RawMarketGroup) (m : Market) :
    buckets_containing (parse_markets main_markets additional_markets) m ≤ 1 ∧
    (m.type ∉ ([1, 2, 8, 15, 17, 19, 62] : List Int) →
      buckets_containing (parse_markets main_markets additional_markets) m = 0) := by
  obtain ⟨h1, h2, h3, h4, h5⟩ := bucketsWellTyped_parse_markets main_markets additional_markets
  set ms := parse_markets main_markets additional_markets with hms
  have t1 := h1 m
  have t2 := h2 m
  have t3 := h3 m
  have t4 := h4 m
  have t5 := h5 m
  constructor
  · by_cases x1 : m ∈ ms.match_result
    · have a := t1 x1
      have y2 : m ∉ ms.over_under := by intro y; rcases t2 y with b | b <;> omega
      have y3 : m ∉ ms.handicap := by intro y; rcases t3 y with b | b <;> omega
      have y4 : m ∉ ms.both_teams_score := by intro y; have b := t4 y; omega
      have y5 : m ∉ ms.correct_score := by intro y; have b := t5 y; omega
      simp [buckets_containing, x1, y2, y3, y4, y5]
    · by_cases x2 : m ∈ ms.over_under
      · have y3 : m ∉ ms.handicap := by
          intro y; rcases t2 x2 with a | a <;> rcases t3 y with b | b <;> omega
        have y4 : m ∉ ms.both_teams_score := by
          intro y; have b := t4 y; rcases t2 x2 with a | a <;> omega
        have y5 : m ∉ ms.correct_score := by
          intro y; have b := t5 y; rcases t2 x2 with a | a <;> omega
        simp [buckets_containing, x1, x2, y3, y4, y5]
      · by_cases x3 : m ∈ ms.handicap
        · have y4 : m ∉ ms.both_teams_score := by
            intro y; have b := t4 y; rcases t3 x3 with a | a <;> omega
          have y5 : m ∉ ms.correct_score := by
            intro y; have b := t5 y; rcases t3 x3 with a | a <;> omega
          simp [buckets_containing, x1, x2, x3, y4, y5]
        · by_cases x4 : m ∈ ms.both_teams_score
          · have y5 : m ∉ ms.correct_score := by
              intro y; have a := t4 x4; have b := t5 y; omega
            simp [buckets_containing, x1, x2, x3, x4, y5]
          · by_cases x5 : m ∈ ms.correct_score
            · simp [buckets_containing, x1, x2, x3, x4, x5]
            · simp [buckets_containing, x1, x2, x3, x4, x5]
  · intro h
    simp only [List.mem_cons, List.not_mem_nil, or_false, not_or] at h
    obtain ⟨q1, q2, q8, q15, q17, q19, q62⟩ := h
    have n1 : m ∉ ms.match_result := fun x => q1 (t1 x)
    have n2 : m ∉ ms.over_under := by
      intro x; rcases t2 x with b | b
      · exact q15 b
      · exact q62 b
    have n3 : m ∉ ms.handicap := by
      intro x; rcases t3 x with b | b
      · exact q2 b
      · exact q17 b
    have n4 : m ∉ ms.both_teams_score := fun x => q19 (t4 x)
    have n5 : m ∉ ms.correct_score := fun x => q8 (t5 x)
    simp [buckets_containing, n1, n2, n3, n4, n5]

/-- C4 witness: a market with unrecognized type code 3 is in no bucket of
the empty parse. -/
theorem C4_at_most_one_bucket_witness :
    buckets_containing (parse_markets [] []) { type := 3, outcome := 0, odds := 0 } = 0 :=
  (C4_at_most_one_bucket [] [] { type := 3, outcome := 0, odds := 0 }).2 (by decide)

/-! ### Claim C5: league summary -/

theorem league_counts_step_sum (acc : List (String × Nat)) (league : String) :
    ((league_counts_step acc league).map Prod.snd).sum = (acc.map Prod.snd).sum + 1 := by
  induction acc with
  | nil => simp [league_counts_step]
  | cons p rest ih =>
    obtain ⟨k, c⟩ := p
    by_cases h : k = league <;> simp [league_counts_step, h, ih] <;> omega

theorem league_counts_sum_aux (ms : List Match) :
    ∀ acc : List (String × Nat),
      (((ms.foldl (fun acc m => league_counts_step acc m.league) acc)).map Prod.snd).sum
        = (acc.map Prod.snd).sum + ms.length := by
  induction ms with
  | nil => intro acc; simp
  | cons m rest ih =>
    intro acc
    simp only [List.foldl_cons, List.length_cons]
    rw [ih, league_counts_step_sum]
    omega

theorem league_counts_sum (ms : List Match) :
    ((league_counts ms).map Prod.snd).sum = ms.length := by
  unfold league_counts
  rw [league_counts_sum_aux]
  simp

theorem popular_leagues_le_trans (a b c : String × Nat)
    (hab : decide (b.2 ≤ a.2) = true) (hbc : decide (c.2 ≤ b.2) = true) :
    decide (c.2 ≤ a.2) = true := by
  simp only [decide_eq_true_eq] at *
  omega

theorem popular_leagues_le_total (a b : String × Nat) :
    (decide (b.2 ≤ a.2) || decide (a.2 ≤ b.2)) = true := by
  rcases Nat.le_total b.2 a.2 with h | h <;> simp [h]

/-- C5: the counts in the league summary sum to the number of matches, the
summary is a permutation of the first-encounter-ordered `league_counts`
association list, it is sorted by count descending, and ties keep their
first-encounter order: for each count value, the entries carrying it appear
in exactly their `league_counts` (first-encounter) order. -/
theorem C5_league_summary (ms : List Match) :
    ((get_popular_leagues ms).map Prod.snd).sum = ms.length ∧
    (get_popular_leagues ms).Perm (league_counts ms) ∧
    (get_popular_leagues ms).Pairwise (fun a b => b.2 ≤ a.2) ∧
    (∀ n : Nat, (get_popular_leagues ms).filter (fun p => p.2 == n)
      = (league_counts ms).filter (fun p => p.2 == n)) := by
  have hperm : (get_popular_leagues ms).Perm (league_counts ms) :=
    List.mergeSort_perm (league_counts ms) _
  refine ⟨?_, hperm, ?_, ?_⟩
  · rw [(hperm.map Prod.snd).sum_eq, league_counts_sum]
  · have hs := List.sorted_mergeSort popular_leagues_le_trans popular_leagues_le_total
      (league_counts ms)
    exact hs.imp (fun h => by simpa using h)
  · intro n
    set l := league_counts ms with hl
    set c := l.filter (fun p => p.2 == n) with hc
    have hc_mem : ∀ p ∈ c, p.2 = n := by
      intro p hp
      have := List.of_mem_filter hp
      simpa using this
    have hcp : c.Pairwise (fun a b => decide (b.2 ≤ a.2) = true) :=
      List.pairwise_of_forall_mem_list
        (fun a ha b hb => by simp [hc_mem a ha, hc_mem b hb])
    have h1 : List.Sublist c (l.mergeSort (fun a b => decide (b.2 ≤ a.2))) :=
      List.sublist_mergeSort popular_leagues_le_trans popular_leagues_le_total hcp
        (List.filter_sublist l)
    have h2 : c.filter (fun p => p.2 == n) = c :=
      List.filter_eq_self.mpr (fun p hp => by simpa using hc_mem p hp)
    have h3 : List.Sublist c ((l.mergeSort (fun a b => decide (b.2 ≤ a.2))).filter
        (fun p => p.2 == n)) := by
      have := h1.filter (fun p => p.2 == n)
      rwa [h2] at this
    have h4 : ((l.mergeSort (fun a b => decide (b.2 ≤ a.2))).filter
        (fun p => p.2 == n)).length = c.length :=
      ((List.mergeSort_perm l _).filter (fun p => p.2 == n)).length_eq
    exact (h3.eq_of_length h4.symm).symm

/-- C5 witness: summary of a concrete two-league dataset. -/
theorem C5_league_summary_witness :
    ((get_popular_leagues []).map Prod.snd).sum = ([] : List Match).length ∧
    (get_popular_leagues []).Perm (league_counts []) ∧
    (get_popular_leagues []).Pairwise (fun a b => b.2 ≤ a.2) ∧
    (∀ n : Nat, (get_popular_leagues []).filter (fun p => p.2 == n)
      = (league_counts []).filter (fun p => p.2 == n)) :=
  C5_league_summary []

/-! ### Claim C6: odds-threshold filter -/

/-- C6: raising the threshold shrinks the result (`with_min_odds(t2)` is a
subset of `with_min_odds(t1)` when `t1 ≤ t2`), and a match is returned for
threshold `t` exactly when it is in the Dataset and at least one of its
match_result markets has odds ≥ `t`. -/
theorem C6_min_odds_monotone (match_list : List Match) (t t1 t2 : Rat) (h : t1 ≤ t2) :
    (∀ m ∈ get_matches_with_good_odds match_list t2,
      m ∈ get_matches_with_good_odds match_list t1) ∧
    (∀ m, m ∈ get_matches_with_good_odds match_list t ↔
      m ∈ match_list ∧ ∃ market ∈ m.markets.match_result, t ≤ market.odds) := by
  constructor
  · intro m hm
    rw [get_matches_with_good_odds, List.mem_filter] at hm ⊢
    obtain ⟨hmem, hodds⟩ := hm
    refine ⟨hmem, ?_⟩
    rw [List.any_eq_true] at hodds ⊢
    obtain ⟨market, hmarket, hge⟩ := hodds
    refine ⟨market, hmarket, ?_⟩
    simp only [decide_eq_true_eq] at hge ⊢
    exact le_trans h hge
  · intro m
    rw [get_matches_with_good_odds, List.mem_filter, List.any_eq_true]
    simp

/-- C6 witness: with a single match quoting 1X2 odds 3, the filters at
thresholds 1 and 2 behave as stated. -/
theorem C6_min_odds_monotone_witness :
    (∀ m ∈ get_matches_with_good_odds
        [{ id := 1, name := "", sport := "", league := "", country := "",
           start_time := 0, home_team := { name := "", id := 0 },
           away_team := { name := "", id := 0 },
           markets := { match_result := [{ type := 1, outcome := 1, odds := 3 }] } }] 2,
      m ∈ get_matches_with_good_odds
        [{ id := 1, name := "", sport := "", league := "", country := "",
           start_time := 0, home_team := { name := "", id := 0 },
           away_team := { name := "", id := 0 },
           markets := { match_result := [{ type := 1, outcome := 1, odds := 3 }] } }] 1) ∧
    (∀ m, m ∈ get_matches_with_good_odds
        [{ id := 1, name := "", sport := "", league := "", country := "",
           start_time := 0, home_team := { name := "", id := 0 },
           away_team := { name := "", id := 0 },
           markets := { match_result := [{ type := 1, outcome := 1, odds := 3 }] } }] 2 ↔
      m ∈ [({ id := 1, name := "", sport := "", league := "", country := "",
              start_time := 0, home_team := { name := "", id := 0 },
              away_team := { name := "", id := 0 },
              markets := { match_result := [{ type := 1, outcome := 1, odds := 3 }] } } : Match)] ∧
        ∃ market ∈ m.markets.match_result, (2 : Rat) ≤ market.odds) :=
  C6_min_odds_monotone
    [{ id := 1, name := "", sport := "", league := "", country := "",
       start_time := 0, home_team := { name := "", id := 0 },
       away_team := { name := "", id := 0 },
       markets := { match_result := [{ type := 1, outcome := 1, odds := 3 }] } }]
    2 1 2 (by norm_num)

/-! ### Claim C7: zero or missing epoch timestamp falls back to now -/

/-- C7: when the raw `"S"` epoch value is absent or zero, the normalized
start_time is the normalization-time clock value `now` (hence not earlier
than normalization start); when it is a non-zero epoch value `ts`, the
start_time is the conversion of `ts`. -/
theorem C7_timestamp_fallback (now : Int) (r : RawMatchRecord) (m : Match)
    (hm : parse_single_match now r = some m) :
    ((r.S = none ∨ r.S = some 0) → m.start_time = now ∧ now ≤ m.start_time) ∧
    (∀ ts : Int, r.S = some ts → ts ≠ 0 → m.start_time = ts) := by
  cases hI : r.I with
  | none => rw [parse_single_match, hI] at hm; simp at hm
  | some k =>
    rw [parse_single_match, hI] at hm
    simp only [Option.bind_eq_bind, Option.some_bind, Option.some.injEq] at hm
    subst hm
    constructor
    · rintro (hS | hS) <;> simp [hS]
    · intro ts hS hts
      simp [hS, hts]

/-- C7 witness: a record with no `"S"` key normalized at clock value 5 gets
start_time 5. -/
theorem C7_timestamp_fallback_witness :
    ∃ m : Match, parse_single_match 5 { I := some 1 } = some m ∧
      m.start_time = 5 ∧ (5 : Int) ≤ m.start_time := by
  refine ⟨_, rfl, ?_⟩
  exact (C7_timestamp_fallback 5 { I := some 1 } _ rfl).1 (Or.inl rfl)

/-! ### Claim C8: only primary-array markets can be main -/

theorem mem_all_buckets_categorize {m mk : Market} {ms : Markets}
    (h : m ∈ all_buckets (categorize_market mk ms)) :
    m = mk ∨ m ∈ all_buckets ms := by
  unfold categorize_market at h
  unfold all_buckets at h ⊢
  dsimp only at h
  split_ifs at h <;> simp only [List.mem_append, List.mem_singleton] at h ⊢ <;> tauto

theorem mem_all_buckets_foldl {α : Type} (f : α → Market) (l : List α) :
    ∀ (ms : Markets) (m : Market),
      m ∈ all_buckets (l.foldl (fun acc d => categorize_market (f d) acc) ms) →
      m ∈ all_buckets ms ∨ ∃ d ∈ l, m = f d := by
  induction l with
  | nil => intro ms m h; exact Or.inl h
  | cons d l ih =>
    intro ms m h
    simp only [List.foldl_cons] at h
    rcases ih _ m h with h' | ⟨d', hd', rfl⟩
    · rcases mem_all_buckets_categorize h' with rfl | h''
      · exact Or.inr ⟨d, List.mem_cons_self d l, rfl⟩
      · exact Or.inl h''
    · exact Or.inr ⟨d', List.mem_cons_of_mem d hd', rfl⟩

theorem mem_all_buckets_foldl_groups (l : List RawMarketGroup) :
    ∀ (ms : Markets) (m : Market),
      m ∈ all_buckets (l.foldl
        (fun acc market_group =>
          (market_group.ME.getD []).foldl
            (fun acc market_data =>
              categorize_market (additional_market_of market_group.G market_data) acc)
            acc)
        ms) →
      m ∈ all_buckets ms ∨
        ∃ g ∈ l, ∃ d ∈ g.ME.getD [], m = additional_market_of g.G d := by
  induction l with
  | nil => intro ms m h; exact Or.inl h
  | cons g l ih =>
    intro ms m h
    simp only [List.foldl_cons] at h
    rcases ih _ m h with h' | ⟨g', hg', d', hd', rfl⟩
    · rcases mem_all_buckets_foldl (additional_market_of g.G) (g.ME.getD []) ms m h' with
        h'' | ⟨d, hd, rfl⟩
      · exact Or.inl h''
      · exact Or.inr ⟨g, List.mem_cons_self g l, d, hd, rfl⟩
    · exact Or.inr ⟨g', List.mem_cons_of_mem g hg', d', hd', rfl⟩

theorem mem_all_buckets_parse_markets {main_markets : List RawMarket}
    {additional_markets : List RawMarketGroup} {m : Market}
    (h : m ∈ all_buckets (parse_markets main_markets additional_markets)) :
    (∃ d ∈ main_markets, m = main_market_of d) ∨
    (∃ g ∈ additional_markets, ∃ d ∈ g.ME.getD [], m = additional_market_of g.G d) := by
  unfold parse_markets at h
  dsimp only at h
  rcases mem_all_buckets_foldl_groups additional_markets _ m h with h' | h'
  · rcases mem_all_buckets_foldl main_market_of main_markets _ m h' with h'' | h''
    · simp [all_buckets] at h''
    · exact Or.inl h''
  · exact Or.inr h'

/-- C8: every market built from an `"AE"` group has is_main = false
regardless of any per-entry flag; a market built from the primary `"E"`
array has is_main = true exactly when the entry's `"CE"` field equals 1;
consequently any market retained in some bucket with is_main = true comes
from a primary-array entry whose `"CE"` equals 1. -/
theorem C8_is_main_flag (main_markets : List RawMarket)
    (additional_markets : List RawMarketGroup) :
    (∀ g d, (additional_market_of g d).is_main = false) ∧
    (∀ d, (main_market_of d).is_main = true ↔ d.CE = some 1) ∧
    (∀ m ∈ all_buckets (parse_markets main_markets additional_markets),
      m.is_main = true →
      ∃ d ∈ main_markets, m = main_market_of d ∧ d.CE = some 1) := by
  refine ⟨fun g d => rfl, fun d => ?_, fun m hm hmain => ?_⟩
  · simp [main_market_of]
  · rcases mem_all_buckets_parse_markets hm with ⟨d, hd, rfl⟩ | ⟨g, hg, d, hd, rfl⟩
    · refine ⟨d, hd, rfl, ?_⟩
      simpa [main_market_of] using hmain
    · simp [additional_market_of] at hmain

/-- C8 witness: a concrete additional-group market is never main. -/
theorem C8_is_main_flag_witness :
    (additional_market_of (some 2) { T := some 7, CE := some 1 }).is_main = false :=
  (C8_is_main_flag [] []).1 (some 2) { T := some 7, CE := some 1 }

/-! ### Claim C9: only the Value array is consulted -/

/-- C9: a response without a `"Value"` array (or with an empty one) parses
without failing into an empty Dataset, and parsing depends only on the
`"Value"` field — the `"Error"`, `"ErrorCode"` and `"Success"` fields are
never consulted. -/
theorem C9_value_only (now : Int) (resp : ApiRawResponse) :
    ((resp.Value = none ∨ resp.Value = some []) → parse_matches now resp = []) ∧
    (∀ resp2 : ApiRawResponse, resp.Value = resp2.Value →
      parse_matches now resp = parse_matches now resp2) := by
  constructor
  · rintro (h | h) <;> simp [parse_matches, h]
  · intro resp2 h
    simp [parse_matches, h]

/-- C9 witness: a response carrying only error fields and no `"Value"` key
yields the empty Dataset. -/
theorem C9_value_only_witness :
    parse_matches 0 { Error := some "boom", ErrorCode := some 7, Success := some false } = [] :=
  (C9_value_only 0 { Error := some "boom", ErrorCode := some 7, Success := some false }).1
    (Or.inl rfl)

/-! ### Claim C10: weather presence -/

/-- C10 counterexample: a misc-info entry with mapped key 9 but no `"V"`
value makes `weather_map` non-empty, so a Weather is returned even though
every one of its fields is `None` — refuting "a present Weather always has
at least one populated field". -/
theorem C10_populated_field_counterexample :
    (parse_weather [{ K := some 9 }]).isSome = true ∧
    parse_weather [{ K := some 9 }]
      = some { temperature := none, condition := none, humidity := none,
               wind_speed := none, pressure := none, precipitation := none } :=
  ⟨rfl, rfl⟩

theorem weather_step_isEmptyMap (m : WeatherMap) (item : RawMiscItem) :
    (weather_step m item).isEmptyMap = true ↔
      m.isEmptyMap = true ∧
        item.K ∉ ([some 9, some 21, some 23, some 25, some 27, some 35] :
          List (Option Int)) := by
  unfold weather_step
  dsimp only
  split_ifs with h1 h2 h3 h4 h5 h6 <;>
    simp_all [WeatherMap.isEmptyMap]

theorem foldl_weather_step_isEmptyMap (items : List RawMiscItem) :
    ∀ m : WeatherMap,
      (items.foldl weather_step m).isEmptyMap = true ↔
        m.isEmptyMap = true ∧ ∀ item ∈ items,
          item.K ∉ ([some 9, some 21, some 23, some 25, some 27, some 35] :
            List (Option Int)) := by
  induction items with
  | nil => intro m; simp
  | cons item rest ih =>
    intro m
    simp only [List.foldl_cons]
    rw [ih, weather_step_isEmptyMap, List.forall_mem_cons]
    tauto

/-- C10 (amended): the normalized weather is absent exactly when the
misc-info list contains no entry whose `"K"` is one of 9, 21, 23, 25, 27,
35 — so it is `None` not only for an empty list but also for a non-empty
list with only unmapped keys; a present Weather always has at least one
field assigned by such an entry, but the assigned value may itself be
missing, so a present Weather can have every field `None`. -/
theorem C10_weather_presence (items : List RawMiscItem) :
    parse_weather items = none ↔
      ∀ item ∈ items,
        item.K ∉ ([some 9, some 21, some 23, some 25, some 27, some 35] :
          List (Option Int)) := by
  unfold parse_weather
  rcases items with _ | ⟨item, rest⟩
  · simp
  · have hne : (item :: rest).isEmpty = false := rfl
    rw [hne]
    simp only [Bool.false_eq_true, if_false]
    have h := foldl_weather_step_isEmptyMap (item :: rest) {}
    have hempty : WeatherMap.isEmptyMap {} = true := rfl
    split_ifs with hm
    · rw [h] at hm
      exact iff_of_true rfl hm.2
    · rw [h] at hm
      push_neg at hm
      refine iff_of_false (by simp) ?_
      intro hall
      obtain ⟨i, hi, hk⟩ := hm hempty
      exact hall i hi hk

end SportsDataParser
